import Mathlib

/-!
Shallow embedding of `pkg/slack/service.go` from the slack-operator
repository, together with proofs of the specification claims.

The Go service talks to the Slack platform through the client object
`s.api`.  We model that client as a record of pure functions (`API`):
each remote endpoint either fails with an error string or returns its
result.  Every embedded service operation additionally returns the list
of remote calls it issued (`ApiCall`), in order, so that claims about
"zero write calls", short-circuiting and fail-fast behaviour are
statements about the produced call trace.
-/

set_option autoImplicit false

namespace SlackOperator

/-- Mirror of the Go constant `ChannelAlreadyExistsError`
(`service.go` line 14). -/
def ChannelAlreadyExistsError : String := "A channel with the same name already exists"

/-- Mirror of `slack.Topic` (only the `Value` field is used by the service). -/
structure TopicInfo where
  value : String
  deriving Repr, DecidableEq

/-- Mirror of `slack.Purpose` (only the `Value` field is used by the service). -/
structure PurposeInfo where
  value : String
  deriving Repr, DecidableEq

/-- Mirror of the fields of `slack.Channel` that `service.go` reads:
`ID`, `Name`, `Topic.Value`, `Purpose.Value`, `IsPrivate`, `Members`. -/
structure Channel where
  id : String
  name : String
  topic : TopicInfo
  purpose : PurposeInfo
  isPrivate : Bool
  members : List String
  deriving Repr, DecidableEq

/-- Mirror of `slack.UserProfile` (only `Email` is used). -/
structure UserProfile where
  email : String
  deriving Repr, DecidableEq

/-- Mirror of the fields of `slack.User` that `service.go` reads:
`ID`, `IsBot`, `Profile.Email`. -/
structure SlackUser where
  id : String
  isBot : Bool
  profile : UserProfile
  deriving Repr, DecidableEq

/-- Mirror of `slackv1alpha1.ChannelSpec`: the desired state
(`Name`, `Description`, `Topic`, `Private`, `Users`). -/
structure ChannelSpec where
  name : String
  description : String
  topic : String
  isPrivate : Bool
  users : List String
  deriving Repr, DecidableEq

/-- Mirror of `slackv1alpha1.ChannelStatus` (only `ID` is used). -/
structure ChannelStatus where
  id : String
  deriving Repr, DecidableEq

/-- Mirror of `slackv1alpha1.Channel`: the custom resource holding the
desired spec and the observed status. -/
structure CRChannel where
  spec : ChannelSpec
  status : ChannelStatus
  deriving Repr, DecidableEq

/-- The remote Slack client (`s.api` in the Go code), modelled as a record
of pure endpoint functions.  Constant arguments that the Go code always
passes (`includeLocale = false` on GetConversationInfo, `Limit`,
`Types`, `ExcludeArchived` on the paginated listings) are elided.
`getUsersInConversation` takes the channel ID and the request cursor and
returns the page of member IDs together with the next cursor.
`getConversations` takes the request cursor and returns the page of
channels together with the next cursor. -/
structure API where
  getConversationInfo : String → Except String Channel
  setPurposeOfConversation : String → String → Except String Channel
  setTopicOfConversation : String → String → Except String Channel
  renameConversation : String → String → Except String Channel
  getUsersInConversation : String → String → Except String (List String × String)
  getUserByEmail : String → Except String SlackUser
  getUserInfo : String → Except String SlackUser
  inviteUsersToConversation : String → String → Except String Unit
  kickUserFromConversation : String → String → Except String Unit
  getConversations : String → Except String (List Channel × String)

/-- One remote call issued by a service operation, with the arguments the
Go code passes (constant parameters elided as in `API`). -/
inductive ApiCall where
  | getConversationInfo (channelID : String)
  | setPurposeOfConversation (channelID text : String)
  | setTopicOfConversation (channelID text : String)
  | renameConversation (channelID newName : String)
  | getUsersInConversation (channelID cursor : String)
  | getUserByEmail (email : String)
  | getUserInfo (userID : String)
  | inviteUsersToConversation (channelID userID : String)
  | kickUserFromConversation (channelID userID : String)
  | getConversations (cursor : String)
  deriving Repr, DecidableEq

/-- Character-level worker for `htmlUnescape`. -/
def unescapeChars : List Char → List Char
  | '&' :: 'a' :: 'm' :: 'p' :: ';' :: rest => '&' :: unescapeChars rest
  | '&' :: 'l' :: 't' :: ';' :: rest => '<' :: unescapeChars rest
  | '&' :: 'g' :: 't' :: ';' :: rest => '>' :: unescapeChars rest
  | c :: rest => c :: unescapeChars rest
  | [] => []

/-- Model of Go `html.UnescapeString`, restricted to the three entities
the Slack platform escapes in stored text (`&amp;`, `&lt;`, `&gt;`).
The claims only use this function as the fixed unescaping step applied
to observed values before comparison. -/
def htmlUnescape (s : String) : String :=
  String.mk (unescapeChars s.data)

/-- Embedding of `SlackService.SetDescription` (`service.go` lines 77-100):
fetch the channel, return it unchanged when its unescaped purpose already
equals the desired description, otherwise issue the remote purpose write. -/
def SetDescription (api : API) (channelID description : String) :
    Except String Channel × List ApiCall :=
  match api.getConversationInfo channelID with
  | .error e => (.error e, [.getConversationInfo channelID])
  | .ok channel =>
    if htmlUnescape channel.purpose.value = description then
      (.ok channel, [.getConversationInfo channelID])
    else
      match api.setPurposeOfConversation channelID description with
      | .error e =>
        (.error e, [.getConversationInfo channelID,
                    .setPurposeOfConversation channelID description])
      | .ok channel2 =>
        (.ok channel2, [.getConversationInfo channelID,
                        .setPurposeOfConversation channelID description])

/-- Embedding of `SlackService.SetTopic` (`service.go` lines 103-126). -/
def SetTopic (api : API) (channelID topic : String) :
    Except String Channel × List ApiCall :=
  match api.getConversationInfo channelID with
  | .error e => (.error e, [.getConversationInfo channelID])
  | .ok channel =>
    if htmlUnescape channel.topic.value = topic then
      (.ok channel, [.getConversationInfo channelID])
    else
      match api.setTopicOfConversation channelID topic with
      | .error e =>
        (.error e, [.getConversationInfo channelID,
                    .setTopicOfConversation channelID topic])
      | .ok channel2 =>
        (.ok channel2, [.getConversationInfo channelID,
                        .setTopicOfConversation channelID topic])

/-- Embedding of `SlackService.RenameChannel` (`service.go` lines 129-151). -/
def RenameChannel (api : API) (channelID newName : String) :
    Except String Channel × List ApiCall :=
  match api.getConversationInfo channelID with
  | .error e => (.error e, [.getConversationInfo channelID])
  | .ok channel =>
    if htmlUnescape channel.name = newName then
      (.ok channel, [.getConversationInfo channelID])
    else
      match api.renameConversation channelID newName with
      | .error e =>
        (.error e, [.getConversationInfo channelID,
                    .renameConversation channelID newName])
      | .ok channel2 =>
        (.ok channel2, [.getConversationInfo channelID,
                        .renameConversation channelID newName])

/-- Whether a call mutates remote state (a "write" in the sense of the
idempotence property). -/
def ApiCall.isWrite : ApiCall → Bool
  | .setPurposeOfConversation _ _ => true
  | .setTopicOfConversation _ _ => true
  | .renameConversation _ _ => true
  | .inviteUsersToConversation _ _ => true
  | .kickUserFromConversation _ _ => true
  | _ => false

/-- Whether a call belongs to the membership comparison of the drift
check (member listing or user resolution). -/
def ApiCall.isMembership : ApiCall → Bool
  | .getUsersInConversation _ _ => true
  | .getUserByEmail _ => true
  | .getUserInfo _ => true
  | _ => false

/-- Embedding of `SlackService.GetUsersInChannel` (`service.go` lines
169-176): a single `GetUsersInConversation` request with the zero-value
cursor `""` (the Go code sets only `ChannelID` and `Limit: 100000` in the
parameter struct) whose next-cursor result is discarded (`userIDs, _, err`). -/
def GetUsersInChannel (api : API) (channelID : String) :
    Except String (List String) × List ApiCall :=
  match api.getUsersInConversation channelID "" with
  | .error e => (.error e, [.getUsersInConversation channelID ""])
  | .ok (userIDs, _) => (.ok userIDs, [.getUsersInConversation channelID ""])

/-- Embedding of `SlackService.InviteUsers` (`service.go` lines 179-202).
Errors are their Go messages; a lookup failure for an email contributes
`"Error fetching user by Email " ++ email`; an invite failure contributes
its own message unless it is `"already_in_channel"` or
`"cant_invite_self"`. -/
def InviteUsers (api : API) (channelID : String) :
    List String → List String × List ApiCall
  | [] => ([], [])
  | email :: rest =>
    match api.getUserByEmail email with
    | .error _ =>
      let r := InviteUsers api channelID rest
      (("Error fetching user by Email " ++ email) :: r.1,
       .getUserByEmail email :: r.2)
    | .ok user =>
      match api.inviteUsersToConversation channelID user.id with
      | .error e =>
        let r := InviteUsers api channelID rest
        (if e = "already_in_channel" ∨ e = "cant_invite_self" then r.1
         else e :: r.1,
         .getUserByEmail email :: .inviteUsersToConversation channelID user.id :: r.2)
      | .ok _ =>
        let r := InviteUsers api channelID rest
        (r.1,
         .getUserByEmail email :: .inviteUsersToConversation channelID user.id :: r.2)

/-- The member loop of `SlackService.RemoveUsers` (`service.go` lines
214-238): for each channel member, fetch user info (failure aborts);
skip bots; skip members whose email appears in `userEmails`; kick the
rest (a kick failure aborts). -/
def removeLoop (api : API) (channelID : String) (userEmails : List String) :
    List String → Except String Unit × List ApiCall
  | [] => (.ok (), [])
  | userId :: rest =>
    match api.getUserInfo userId with
    | .error e => (.error e, [.getUserInfo userId])
    | .ok user =>
      if user.isBot then
        let r := removeLoop api channelID userEmails rest
        (r.1, .getUserInfo userId :: r.2)
      else if userEmails.contains user.profile.email then
        let r := removeLoop api channelID userEmails rest
        (r.1, .getUserInfo userId :: r.2)
      else
        match api.kickUserFromConversation channelID user.id with
        | .error e =>
          (.error e, [.getUserInfo userId, .kickUserFromConversation channelID user.id])
        | .ok _ =>
          let r := removeLoop api channelID userEmails rest
          (r.1, .getUserInfo userId :: .kickUserFromConversation channelID user.id :: r.2)

/-- Embedding of `SlackService.RemoveUsers` (`service.go` lines 205-241):
list channel members via `GetUsersInChannel` (failure aborts), then run
the removal loop. -/
def RemoveUsers (api : API) (channelID : String) (userEmails : List String) :
    Except String Unit × List ApiCall :=
  match GetUsersInChannel api channelID with
  | (.error e, tr) => (.error e, tr)
  | (.ok channelUserIDs, tr) =>
    let r := removeLoop api channelID userEmails channelUserIDs
    (r.1, tr ++ r.2)

/-- The added-member loop of `SlackService.IsChannelUpdated`
(`service.go` lines 287-305): resolve each desired email (failure
aborts); if the resolved user ID is not among the channel members,
report drift immediately. -/
def addedCheck (api : API) (channelUserIDs : List String) :
    List String → Except String Bool × List ApiCall
  | [] => (.ok false, [])
  | email :: rest =>
    match api.getUserByEmail email with
    | .error e => (.error e, [.getUserByEmail email])
    | .ok user =>
      if channelUserIDs.contains user.id then
        let r := addedCheck api channelUserIDs rest
        (r.1, .getUserByEmail email :: r.2)
      else
        (.ok true, [.getUserByEmail email])

/-- The removed-member loop of `SlackService.IsChannelUpdated`
(`service.go` lines 308-328): fetch each member's user info (failure
aborts); a non-bot member whose email is absent from the desired set is
drift. -/
def removedCheck (api : API) (userEmails : List String) :
    List String → Except String Bool × List ApiCall
  | [] => (.ok false, [])
  | userId :: rest =>
    match api.getUserInfo userId with
    | .error e => (.error e, [.getUserInfo userId])
    | .ok user =>
      if user.isBot then
        let r := removedCheck api userEmails rest
        (r.1, .getUserInfo userId :: r.2)
      else if userEmails.contains user.profile.email then
        let r := removedCheck api userEmails rest
        (r.1, .getUserInfo userId :: r.2)
      else
        (.ok true, [.getUserInfo userId])

/-- Embedding of `SlackService.IsChannelUpdated` (`service.go` lines
255-331): fetch the channel; compare name, topic, description (each
unescaped) in order, returning drift on the first mismatch; then list
members and run the added-member check followed by the removed-member
check. -/
def IsChannelUpdated (api : API) (channel : CRChannel) :
    Except String Bool × List ApiCall :=
  let channelID := channel.status.id
  match api.getConversationInfo channelID with
  | .error e => (.error e, [.getConversationInfo channelID])
  | .ok existingChannel =>
    if htmlUnescape existingChannel.name ≠ channel.spec.name then
      (.ok true, [.getConversationInfo channelID])
    else if htmlUnescape existingChannel.topic.value ≠ channel.spec.topic then
      (.ok true, [.getConversationInfo channelID])
    else if htmlUnescape existingChannel.purpose.value ≠ channel.spec.description then
      (.ok true, [.getConversationInfo channelID])
    else
      match GetUsersInChannel api channelID with
      | (.error e, tr) => (.error e, .getConversationInfo channelID :: tr)
      | (.ok channelUserIDs, tr) =>
        match addedCheck api channelUserIDs channel.spec.users with
        | (.error e, tr1) => (.error e, .getConversationInfo channelID :: tr ++ tr1)
        | (.ok true, tr1) => (.ok true, .getConversationInfo channelID :: tr ++ tr1)
        | (.ok false, tr1) =>
          let r := removedCheck api channel.spec.users channelUserIDs
          (r.1, .getConversationInfo channelID :: tr ++ tr1 ++ r.2)

/-- Embedding of `SlackService.IsValidChannel` (`service.go` lines
333-339). -/
def IsValidChannel (channel : CRChannel) : Except String Unit :=
  if channel.spec.users.length < 1 then
    .error "Users can not be empty"
  else
    .ok ()

/-- The pagination loop of `SlackService.GetChannelByName` (`service.go`
lines 345-369), with explicit fuel bounding the number of iterations of
the Go `for` loop: request the page at `cursor`, return the first channel
on the page whose name equals `name`, stop with
`ChannelAlreadyExistsError` when the next cursor is the empty string,
otherwise continue from the next cursor. -/
def getChannelByNameLoop (api : API) (name : String) :
    Nat → String → Except String Channel × List ApiCall
  | 0, _ => (.error "", [])
  | fuel + 1, cursor =>
    match api.getConversations cursor with
    | .error e => (.error e, [.getConversations cursor])
    | .ok (channels, nextCursor) =>
      match channels.find? (fun channel => channel.name == name) with
      | some channel => (.ok channel, [.getConversations cursor])
      | none =>
        if nextCursor = "" then
          (.error ChannelAlreadyExistsError, [.getConversations cursor])
        else
          let r := getChannelByNameLoop api name fuel nextCursor
          (r.1, .getConversations cursor :: r.2)

/-- Embedding of `SlackService.GetChannelByName` (`service.go` lines
342-372): the loop starts from the zero-value cursor `""`. -/
def GetChannelByName (api : API) (fuel : Nat) (name : String) :
    Except String Channel × List ApiCall :=
  getChannelByNameLoop api name fuel ""

/-- The remote channel collection reachable from cursor `c` is exactly
the pages `pages`, requested at the cursors `cursors` (in order):
each request at a cursor returns the corresponding page together with
the next cursor, intermediate next cursors are nonempty, and the last
page's next cursor is the empty string. -/
inductive Chain (api : API) : String → List (List Channel) → List String → Prop
  | last (c : String) (p : List Channel) :
      api.getConversations c = .ok (p, "") → Chain api c [p] [c]
  | step (c c2 : String) (p : List Channel) (ps : List (List Channel))
      (cs : List String) :
      api.getConversations c = .ok (p, c2) → c2 ≠ "" →
      Chain api c2 ps cs → Chain api c (p :: ps) (c :: cs)

/-- Reference scan over the page contents: the first channel named `name`
in the concatenation of the pages. -/
def scanPages (name : String) : List (List Channel) → Option Channel
  | [] => none
  | p :: ps =>
    match p.find? (fun channel => channel.name == name) with
    | some channel => some channel
    | none => scanPages name ps

/-- Number of pages the loop requests before stopping: all pages up to
and including the first page containing a name match, or all pages when
no page matches. -/
def pagesVisited (name : String) : List (List Channel) → Nat
  | [] => 0
  | p :: ps =>
    if (p.find? (fun channel => channel.name == name)).isSome then 1
    else pagesVisited name ps + 1

/-- The remote member collection of a channel reachable from cursor `c`
consists exactly of the member-ID pages `pages`: analogous to `Chain`
but for `getUsersInConversation` on a fixed channel. -/
inductive MChain (api : API) (channelID : String) :
    String → List (List String) → Prop
  | last (c : String) (p : List String) :
      api.getUsersInConversation channelID c = .ok (p, "") →
      MChain api channelID c [p]
  | step (c c2 : String) (p : List String) (ps : List (List String)) :
      api.getUsersInConversation channelID c = .ok (p, c2) → c2 ≠ "" →
      MChain api channelID c2 ps → MChain api channelID c (p :: ps)

/-! ### Concrete remote instances used by the witnesses -/

/-- A remote client on which every endpoint fails; concrete witnesses
override the endpoints they exercise. -/
def apiEmpty : API where
  getConversationInfo := fun _ => .error "unused"
  setPurposeOfConversation := fun _ _ => .error "unused"
  setTopicOfConversation := fun _ _ => .error "unused"
  renameConversation := fun _ _ => .error "unused"
  getUsersInConversation := fun _ _ => .error "unused"
  getUserByEmail := fun _ => .error "unused"
  getUserInfo := fun _ => .error "unused"
  inviteUsersToConversation := fun _ _ => .error "unused"
  kickUserFromConversation := fun _ _ => .error "unused"
  getConversations := fun _ => .error "unused"

/-- A concrete remote channel state. -/
def chTeamX : Channel :=
  { id := "C1", name := "team-x", topic := ⟨"launch"⟩,
    purpose := ⟨"Desc &amp;co"⟩, isPrivate := false, members := [] }

/-- Remote on which fetching any channel yields `chTeamX`. -/
def apiFetchTeamX : API :=
  { apiEmpty with getConversationInfo := fun _ => .ok chTeamX }

/-! ### C1: read-then-compare-then-write idempotence of the setters -/

/-- C1.  For every channel whose current remote purpose / topic / name,
after HTML-unescaping, equals the desired value, `SetDescription` /
`SetTopic` / `RenameChannel` issue no remote write (the trace is exactly
the single `getConversationInfo` read, which is not a write) and return
the fetched channel unchanged; when the unescaped current value differs
from the desired value, the corresponding remote write call is issued. -/
theorem setters_idempotent (api : API) (channelID v : String) (ch : Channel)
    (hfetch : api.getConversationInfo channelID = .ok ch) :
    (htmlUnescape ch.purpose.value = v →
       SetDescription api channelID v = (.ok ch, [.getConversationInfo channelID]) ∧
       ∀ c ∈ (SetDescription api channelID v).2, c.isWrite = false) ∧
    (htmlUnescape ch.purpose.value ≠ v →
       ApiCall.setPurposeOfConversation channelID v ∈ (SetDescription api channelID v).2) ∧
    (htmlUnescape ch.topic.value = v →
       SetTopic api channelID v = (.ok ch, [.getConversationInfo channelID]) ∧
       ∀ c ∈ (SetTopic api channelID v).2, c.isWrite = false) ∧
    (htmlUnescape ch.topic.value ≠ v →
       ApiCall.setTopicOfConversation channelID v ∈ (SetTopic api channelID v).2) ∧
    (htmlUnescape ch.name = v →
       RenameChannel api channelID v = (.ok ch, [.getConversationInfo channelID]) ∧
       ∀ c ∈ (RenameChannel api channelID v).2, c.isWrite = false) ∧
    (htmlUnescape ch.name ≠ v →
       ApiCall.renameConversation channelID v ∈ (RenameChannel api channelID v).2) := by
  refine ⟨fun h => ?_, fun h => ?_, fun h => ?_, fun h => ?_, fun h => ?_, fun h => ?_⟩
  · simp [SetDescription, hfetch, h, ApiCall.isWrite]
  · cases hw : api.setPurposeOfConversation channelID v <;>
      simp [SetDescription, hfetch, h, hw]
  · simp [SetTopic, hfetch, h, ApiCall.isWrite]
  · cases hw : api.setTopicOfConversation channelID v <;>
      simp [SetTopic, hfetch, h, hw]
  · simp [RenameChannel, hfetch, h, ApiCall.isWrite]
  · cases hw : api.renameConversation channelID v <;>
      simp [RenameChannel, hfetch, h, hw]

/-- Witness for C1 on a concrete remote: the topic `"launch"` is already
current, so `SetTopic` returns the fetched state after the single read,
and the escaped purpose `"Desc &amp;co"` differs from `"other"`, so the
purpose write is issued. -/
theorem setters_idempotent_witness :
    SetTopic apiFetchTeamX "C1" "launch" =
      (.ok chTeamX, [.getConversationInfo "C1"]) ∧
    ApiCall.setPurposeOfConversation "C1" "other" ∈
      (SetDescription apiFetchTeamX "C1" "other").2 := by
  have h := setters_idempotent apiFetchTeamX "C1" "launch" chTeamX rfl
  have h2 := setters_idempotent apiFetchTeamX "C1" "other" chTeamX rfl
  exact ⟨(h.2.2.1 (by decide)).1, h2.2.1 (by decide)⟩

/-! ### C2: best-effort invite -/

/-- The outcome `InviteUsers` records for a single email, read off the
remote responses: a lookup failure yields the fetch-error message, an
invite failure yields its own message unless it is one of the two
"already satisfied" responses, and everything else yields no entry. -/
def inviteErrOf (api : API) (channelID email : String) : Option String :=
  match api.getUserByEmail email with
  | .error _ => some ("Error fetching user by Email " ++ email)
  | .ok user =>
    match api.inviteUsersToConversation channelID user.id with
    | .error e =>
      if e = "already_in_channel" ∨ e = "cant_invite_self" then none else some e
    | .ok _ => none

/-- Concrete users for the invite scenario. -/
def userA : SlackUser := { id := "UA", isBot := false, profile := ⟨"a@co.com"⟩ }

/-- Concrete user resolved from the third invite email. -/
def userC : SlackUser := { id := "UC", isBot := false, profile := ⟨"c@co.com"⟩ }

/-- Remote for the `[a,b,c]` invite scenario: `b` fails user lookup, `c`
resolves but its invite answers `"already_in_channel"`, `a` succeeds. -/
def apiInvite : API :=
  { apiEmpty with
    getUserByEmail := fun email =>
      if email = "a@co.com" then .ok userA
      else if email = "c@co.com" then .ok userC
      else .error "users_not_found",
    inviteUsersToConversation := fun _ userID =>
      if userID = "UA" then .ok () else .error "already_in_channel" }

/-- C2.  `InviteUsers` processes every email regardless of earlier
failures: its error list is exactly the per-email outcomes in input
order (so a lookup failure contributes one entry and processing
continues, the two "already satisfied" invite responses contribute no
entry, any other invite failure contributes its entry without aborting,
and an empty result means no email had a recordable failure); moreover
every email's user lookup call appears in the trace; and on the concrete
scenario `[a,b,c]` where `b` fails lookup and `c` answers
`"already_in_channel"`, the result is exactly the one entry for `b`. -/
theorem inviteUsers_best_effort (api : API) (channelID : String)
    (emails : List String) :
    (InviteUsers api channelID emails).1 =
      emails.filterMap (inviteErrOf api channelID) ∧
    (∀ email ∈ emails,
       ApiCall.getUserByEmail email ∈ (InviteUsers api channelID emails).2) ∧
    (InviteUsers apiInvite "CH" ["a@co.com", "b@co.com", "c@co.com"]).1 =
      ["Error fetching user by Email b@co.com"] := by
  refine ⟨?_, ?_, rfl⟩
  · induction emails with
    | nil => simp [InviteUsers]
    | cons email rest ih =>
      cases hu : api.getUserByEmail email with
      | error err => simp [InviteUsers, inviteErrOf, hu, ih]
      | ok user =>
        cases hi : api.inviteUsersToConversation channelID user.id with
        | error err =>
          by_cases hc : err = "already_in_channel" ∨ err = "cant_invite_self" <;>
            simp [InviteUsers, inviteErrOf, hu, hi, hc, ih]
        | ok _ => simp [InviteUsers, inviteErrOf, hu, hi, ih]
  · induction emails with
    | nil => simp
    | cons email rest ih =>
      intro e he
      rcases List.mem_cons.mp he with rfl | he2
      · cases hu : api.getUserByEmail e with
        | error err => simp [InviteUsers, hu]
        | ok user =>
          cases hi : api.inviteUsersToConversation channelID user.id <;>
            simp [InviteUsers, hu, hi]
      · cases hu : api.getUserByEmail email with
        | error err =>
          have := ih e he2
          simp only [InviteUsers, hu] at *
          simp [this]
        | ok user =>
          have := ih e he2
          cases hi : api.inviteUsersToConversation channelID user.id <;>
            · simp only [InviteUsers, hu, hi] at *
              simp [this]

/-- Witness for C2 on `apiInvite`: the concrete `[a,b,c]` run yields
exactly the lookup-failure entry for `b`, matches the per-email
outcomes, and the lookup call for `a` appears in the trace. -/
theorem inviteUsers_best_effort_witness :
    (InviteUsers apiInvite "CH" ["a@co.com", "b@co.com", "c@co.com"]).1 =
      ["a@co.com", "b@co.com", "c@co.com"].filterMap (inviteErrOf apiInvite "CH") ∧
    ApiCall.getUserByEmail "a@co.com" ∈
      (InviteUsers apiInvite "CH" ["a@co.com", "b@co.com", "c@co.com"]).2 ∧
    (InviteUsers apiInvite "CH" ["a@co.com", "b@co.com", "c@co.com"]).1 =
      ["Error fetching user by Email b@co.com"] :=
  ⟨(inviteUsers_best_effort apiInvite "CH"
      ["a@co.com", "b@co.com", "c@co.com"]).1,
   (inviteUsers_best_effort apiInvite "CH"
      ["a@co.com", "b@co.com", "c@co.com"]).2.1 "a@co.com" (by decide),
   (inviteUsers_best_effort apiInvite "CH"
      ["a@co.com", "b@co.com", "c@co.com"]).2.2⟩

/-! ### C8: validation -/

/-- Custom resource with an empty desired member list. -/
def crNoUsers : CRChannel :=
  { spec := { name := "n", description := "d", topic := "t",
              isPrivate := true, users := [] },
    status := ⟨"C1"⟩ }

/-- Custom resource with one desired member and arbitrary other fields. -/
def crOneUser : CRChannel :=
  { spec := { name := "", description := "", topic := "",
              isPrivate := false, users := ["a@co.com"] },
    status := ⟨""⟩ }

/-- C8.  `IsValidChannel` fails with the validation error exactly on an
empty `Users` list and succeeds on every spec with at least one member,
whatever the other fields hold (the statement quantifies over the whole
custom resource). -/
theorem isValidChannel_users_nonempty (cr : CRChannel) :
    (cr.spec.users = [] →
       IsValidChannel cr = .error "Users can not be empty") ∧
    (cr.spec.users ≠ [] → IsValidChannel cr = .ok ()) := by
  constructor <;> intro h <;>
    simp [IsValidChannel, Nat.lt_one_iff, List.length_eq_zero, h]

/-- Witness for C8: the empty-member resource is rejected and the
one-member resource is accepted. -/
theorem isValidChannel_users_nonempty_witness :
    IsValidChannel crNoUsers = .error "Users can not be empty" ∧
    IsValidChannel crOneUser = .ok () :=
  ⟨(isValidChannel_users_nonempty crNoUsers).1 rfl,
   (isValidChannel_users_nonempty crOneUser).2 (by simp [crOneUser])⟩

/-! ### C3, C10, C4: removal loop -/

/-- Step equation: a failing user-info lookup aborts the removal loop at
once. -/
theorem removeLoop_cons_info_err (api : API) (channelID : String)
    (userEmails : List String) (userId : String) (l : List String) (e : String)
    (hu : api.getUserInfo userId = .error e) :
    removeLoop api channelID userEmails (userId :: l) =
      (.error e, [.getUserInfo userId]) := by
  simp [removeLoop, hu]

/-- Step equation: a bot member is skipped by the removal loop. -/
theorem removeLoop_cons_bot (api : API) (channelID : String)
    (userEmails : List String) (userId : String) (l : List String)
    (user : SlackUser) (hu : api.getUserInfo userId = .ok user)
    (hb : user.isBot = true) :
    removeLoop api channelID userEmails (userId :: l) =
      ((removeLoop api channelID userEmails l).1,
       .getUserInfo userId :: (removeLoop api channelID userEmails l).2) := by
  simp [removeLoop, hu, hb]

/-- Step equation: a non-bot member whose email is in the desired set is
kept by the removal loop. -/
theorem removeLoop_cons_kept (api : API) (channelID : String)
    (userEmails : List String) (userId : String) (l : List String)
    (user : SlackUser) (hu : api.getUserInfo userId = .ok user)
    (hb : user.isBot = false) (hf : user.profile.email ∈ userEmails) :
    removeLoop api channelID userEmails (userId :: l) =
      ((removeLoop api channelID userEmails l).1,
       .getUserInfo userId :: (removeLoop api channelID userEmails l).2) := by
  simp [removeLoop, hu, hb, hf]

/-- Step equation: a failing kick aborts the removal loop at once. -/
theorem removeLoop_cons_kick_err (api : API) (channelID : String)
    (userEmails : List String) (userId : String) (l : List String)
    (user : SlackUser) (e : String) (hu : api.getUserInfo userId = .ok user)
    (hb : user.isBot = false) (hf : user.profile.email ∉ userEmails)
    (hk : api.kickUserFromConversation channelID user.id = .error e) :
    removeLoop api channelID userEmails (userId :: l) =
      (.error e, [.getUserInfo userId,
                  .kickUserFromConversation channelID user.id]) := by
  simp [removeLoop, hu, hb, hf, hk]

/-- Step equation: a successful kick and the loop continues. -/
theorem removeLoop_cons_kick_ok (api : API) (channelID : String)
    (userEmails : List String) (userId : String) (l : List String)
    (user : SlackUser) (v : Unit) (hu : api.getUserInfo userId = .ok user)
    (hb : user.isBot = false) (hf : user.profile.email ∉ userEmails)
    (hk : api.kickUserFromConversation channelID user.id = .ok v) :
    removeLoop api channelID userEmails (userId :: l) =
      ((removeLoop api channelID userEmails l).1,
       .getUserInfo userId :: .kickUserFromConversation channelID user.id ::
         (removeLoop api channelID userEmails l).2) := by
  simp [removeLoop, hu, hb, hf, hk]

/-- When the removal loop traverses a prefix without aborting, running it
on the extended list first replays the prefix's calls and then behaves as
on the remainder. -/
theorem removeLoop_append (api : API) (channelID : String)
    (userEmails pre : List String) {trPre : List ApiCall}
    (h : removeLoop api channelID userEmails pre = (.ok (), trPre))
    (rest : List String) :
    removeLoop api channelID userEmails (pre ++ rest) =
      ((removeLoop api channelID userEmails rest).1,
       trPre ++ (removeLoop api channelID userEmails rest).2) := by
  induction pre generalizing trPre with
  | nil =>
    simp only [removeLoop, Prod.mk.injEq, true_and] at h
    subst h
    simp
  | cons userId pre ih =>
    cases hu : api.getUserInfo userId with
    | error e =>
      rw [removeLoop_cons_info_err api channelID userEmails userId pre e hu] at h
      simp at h
    | ok user =>
      by_cases hb : user.isBot = true
      · rw [removeLoop_cons_bot api channelID userEmails userId pre user hu hb,
          Prod.mk.injEq] at h
        obtain ⟨h1, h2⟩ := h
        have hpre : removeLoop api channelID userEmails pre =
            (.ok (), (removeLoop api channelID userEmails pre).2) := by
          rw [← h1]
        have hstep := ih hpre
        subst h2
        rw [List.cons_append,
          removeLoop_cons_bot api channelID userEmails userId (pre ++ rest) user hu hb,
          hstep]
        simp
      · have hb2 : user.isBot = false := by simpa using hb
        by_cases hf : user.profile.email ∈ userEmails
        · rw [removeLoop_cons_kept api channelID userEmails userId pre user hu hb2 hf,
            Prod.mk.injEq] at h
          obtain ⟨h1, h2⟩ := h
          have hpre : removeLoop api channelID userEmails pre =
              (.ok (), (removeLoop api channelID userEmails pre).2) := by
            rw [← h1]
          have hstep := ih hpre
          subst h2
          rw [List.cons_append,
            removeLoop_cons_kept api channelID userEmails userId (pre ++ rest) user hu hb2 hf,
            hstep]
          simp
        · cases hk : api.kickUserFromConversation channelID user.id with
          | error e =>
            rw [removeLoop_cons_kick_err api channelID userEmails userId pre
              user e hu hb2 hf hk] at h
            simp at h
          | ok v =>
            rw [removeLoop_cons_kick_ok api channelID userEmails userId pre
              user v hu hb2 hf hk, Prod.mk.injEq] at h
            obtain ⟨h1, h2⟩ := h
            have hpre : removeLoop api channelID userEmails pre =
                (.ok (), (removeLoop api channelID userEmails pre).2) := by
              rw [← h1]
            have hstep := ih hpre
            subst h2
            rw [List.cons_append,
              removeLoop_cons_kick_ok api channelID userEmails userId (pre ++ rest)
                user v hu hb2 hf hk,
              hstep]
            simp

/-- C3.  `RemoveUsers` is fail-fast on kicks: when the member list is
`pre ++ x :: rest`, the loop traverses `pre` without aborting, `x`
resolves to a non-bot user absent from the desired email set, and the
kick of `x` fails, the call returns that error at once and its trace ends
with that kick — no call of any kind is issued for the members in
`rest`. -/
theorem removeUsers_fail_fast_kick (api : API) (channelID e next : String)
    (userEmails ids pre rest : List String) (x : String) (u : SlackUser)
    (trPre : List ApiCall)
    (hm : api.getUsersInConversation channelID "" = .ok (ids, next))
    (hids : ids = pre ++ x :: rest)
    (hpre : removeLoop api channelID userEmails pre = (.ok (), trPre))
    (hx : api.getUserInfo x = .ok u)
    (hbot : u.isBot = false)
    (hmail : u.profile.email ∉ userEmails)
    (hkick : api.kickUserFromConversation channelID u.id = .error e) :
    RemoveUsers api channelID userEmails =
      (.error e, .getUsersInConversation channelID "" :: trPre ++
        [.getUserInfo x, .kickUserFromConversation channelID u.id]) := by
  subst hids
  have hx1 := removeLoop_cons_kick_err api channelID userEmails x rest u e
    hx hbot hmail hkick
  have happ := removeLoop_append api channelID userEmails pre hpre (x :: rest)
  rw [hx1] at happ
  simp [RemoveUsers, GetUsersInChannel, hm, happ]

/-- Remote for the fail-fast removal scenarios: members `X`, `Y`, `Z`,
all non-bot with emails outside the (empty) desired set; kicking `X`
fails. -/
def apiKick : API :=
  { apiEmpty with
    getUsersInConversation := fun _ _ => .ok (["X", "Y", "Z"], ""),
    getUserInfo := fun userId =>
      .ok { id := userId, isBot := false, profile := ⟨userId ++ "@co.com"⟩ },
    kickUserFromConversation := fun _ userId =>
      if userId = "X" then .error "kick_failed" else .ok () }

/-- Witness for C3 on `apiKick`: with members `[X, Y, Z]` all absent from
the desired set and the kick of `X` failing, the call stops after that
kick. -/
theorem removeUsers_fail_fast_kick_witness :
    RemoveUsers apiKick "CH" [] =
      (.error "kick_failed", .getUsersInConversation "CH" "" :: [] ++
        [.getUserInfo "X", .kickUserFromConversation "CH" "X"]) :=
  removeUsers_fail_fast_kick apiKick "CH" "kick_failed" "" [] ["X", "Y", "Z"]
    [] ["Y", "Z"] "X" { id := "X", isBot := false, profile := ⟨"X@co.com"⟩ }
    [] rfl rfl rfl rfl rfl (by simp) rfl

/-- C10.  `RemoveUsers` is fail-fast on reads as well: a failure of the
initial member-list fetch returns that error with no member processed at
all, and a failure of the user-info lookup for a member `x` (after the
loop traversed `pre` without aborting) returns that error with a trace
ending at that lookup — no kick for `x` and no call for later members. -/
theorem removeUsers_fail_fast_reads (api : API) (channelID e : String)
    (userEmails : List String) :
    (api.getUsersInConversation channelID "" = .error e →
       RemoveUsers api channelID userEmails =
         (.error e, [.getUsersInConversation channelID ""])) ∧
    (∀ ids next pre x rest trPre,
       api.getUsersInConversation channelID "" = .ok (ids, next) →
       ids = pre ++ x :: rest →
       removeLoop api channelID userEmails pre = (.ok (), trPre) →
       api.getUserInfo x = .error e →
       RemoveUsers api channelID userEmails =
         (.error e, .getUsersInConversation channelID "" :: trPre ++
           [.getUserInfo x])) := by
  constructor
  · intro h
    simp [RemoveUsers, GetUsersInChannel, h]
  · intro ids next pre x rest trPre hm hids hpre hx
    subst hids
    have hx1 := removeLoop_cons_info_err api channelID userEmails x rest e hx
    have happ := removeLoop_append api channelID userEmails pre hpre (x :: rest)
    rw [hx1] at happ
    simp [RemoveUsers, GetUsersInChannel, hm, happ]

/-- Remote whose member-list fetch fails. -/
def apiMembersFetchFail : API :=
  { apiEmpty with getUsersInConversation := fun _ _ => .error "fetch_failed" }

/-- Remote whose member list is `[X, Y]` but whose user-info lookup
fails. -/
def apiUserInfoFail : API :=
  { apiEmpty with
    getUsersInConversation := fun _ _ => .ok (["X", "Y"], ""),
    getUserInfo := fun _ => .error "info_failed" }

/-- Witness for C10 on concrete remotes: a failed member-list fetch and a
failed first user-info lookup each abort `RemoveUsers` immediately. -/
theorem removeUsers_fail_fast_reads_witness :
    RemoveUsers apiMembersFetchFail "CH" [] =
      (.error "fetch_failed", [.getUsersInConversation "CH" ""]) ∧
    RemoveUsers apiUserInfoFail "CH" [] =
      (.error "info_failed", .getUsersInConversation "CH" "" :: [] ++
        [.getUserInfo "X"]) :=
  ⟨(removeUsers_fail_fast_reads apiMembersFetchFail "CH" "fetch_failed" []).1 rfl,
   (removeUsers_fail_fast_reads apiUserInfoFail "CH" "info_failed" []).2
     ["X", "Y"] "" [] "X" ["Y"] [] rfl rfl rfl rfl⟩

/-- Every kick the removal loop issues originates from a member whose
user-info lookup returned a non-bot user with that ID whose email is
absent from the desired set. -/
theorem removeLoop_kick_nonbot (api : API) (channelID kicked : String)
    (userEmails l : List String) :
    ApiCall.kickUserFromConversation channelID kicked ∈
      (removeLoop api channelID userEmails l).2 →
    ∃ userId ∈ l, ∃ u, api.getUserInfo userId = .ok u ∧ u.id = kicked ∧
      u.isBot = false ∧ u.profile.email ∉ userEmails := by
  induction l with
  | nil => simp [removeLoop]
  | cons userId rest ih =>
    intro hmem
    cases hu : api.getUserInfo userId with
    | error e =>
      rw [removeLoop_cons_info_err api channelID userEmails userId rest e hu] at hmem
      simp at hmem
    | ok user =>
      by_cases hb : user.isBot = true
      · rw [removeLoop_cons_bot api channelID userEmails userId rest user hu hb] at hmem
        simp only [List.mem_cons] at hmem
        rcases hmem with hmem | hmem
        · exact absurd hmem (by simp)
        · obtain ⟨j, hj, hrest⟩ := ih hmem
          exact ⟨j, List.mem_cons_of_mem _ hj, hrest⟩
      · have hb2 : user.isBot = false := by simpa using hb
        by_cases hf : user.profile.email ∈ userEmails
        · rw [removeLoop_cons_kept api channelID userEmails userId rest
            user hu hb2 hf] at hmem
          simp only [List.mem_cons] at hmem
          rcases hmem with hmem | hmem
          · exact absurd hmem (by simp)
          · obtain ⟨j, hj, hrest⟩ := ih hmem
            exact ⟨j, List.mem_cons_of_mem _ hj, hrest⟩
        · cases hk : api.kickUserFromConversation channelID user.id with
          | error e =>
            rw [removeLoop_cons_kick_err api channelID userEmails userId rest
              user e hu hb2 hf hk] at hmem
            simp only [List.mem_cons, List.not_mem_nil, or_false] at hmem
            rcases hmem with hmem | hmem
            · exact absurd hmem (by simp)
            · have hid : kicked = user.id := by
                injection hmem
              exact ⟨userId, List.mem_cons_self _ _, user, hu, hid.symm, hb2, hf⟩
          | ok v =>
            rw [removeLoop_cons_kick_ok api channelID userEmails userId rest
              user v hu hb2 hf hk] at hmem
            simp only [List.mem_cons] at hmem
            rcases hmem with hmem | hmem | hmem
            · exact absurd hmem (by simp)
            · have hid : kicked = user.id := by
                injection hmem
              exact ⟨userId, List.mem_cons_self _ _, user, hu, hid.symm, hb2, hf⟩
            · obtain ⟨j, hj, hrest⟩ := ih hmem
              exact ⟨j, List.mem_cons_of_mem _ hj, hrest⟩

/-- C4.  A member flagged as bot is never removed and never signals
drift: every kick `RemoveUsers` issues is justified by a user-info
response with `isBot = false` (and an email outside the desired set),
and the removed-member check reports drift only when some listed member
resolves to such a non-bot user. -/
theorem bot_members_never_removed (api : API) (channelID kicked : String)
    (userEmails ids : List String) :
    (ApiCall.kickUserFromConversation channelID kicked ∈
       (RemoveUsers api channelID userEmails).2 →
     ∃ userId u, api.getUserInfo userId = .ok u ∧ u.id = kicked ∧
       u.isBot = false ∧ u.profile.email ∉ userEmails) ∧
    ((removedCheck api userEmails ids).1 = .ok true →
     ∃ userId ∈ ids, ∃ u, api.getUserInfo userId = .ok u ∧
       u.isBot = false ∧ u.profile.email ∉ userEmails) := by
  constructor
  · intro hmem
    cases hfetch : api.getUsersInConversation channelID "" with
    | error e => simp [RemoveUsers, GetUsersInChannel, hfetch] at hmem
    | ok page =>
      simp only [RemoveUsers, GetUsersInChannel, hfetch, List.cons_append,
        List.nil_append, List.mem_cons] at hmem
      rcases hmem with hmem | hmem
      · exact absurd hmem (by simp)
      · obtain ⟨j, _, u, hj⟩ := removeLoop_kick_nonbot api channelID kicked
          userEmails page.1 hmem
        exact ⟨j, u, hj⟩
  · induction ids with
    | nil => simp [removedCheck]
    | cons userId rest ih =>
      intro h
      cases hu : api.getUserInfo userId with
      | error e => simp [removedCheck, hu] at h
      | ok user =>
        by_cases hb : user.isBot = true
        · have hstep : (removedCheck api userEmails (userId :: rest)).1 =
              (removedCheck api userEmails rest).1 := by
            simp [removedCheck, hu, hb]
          rw [hstep] at h
          obtain ⟨j, hj, hrest⟩ := ih h
          exact ⟨j, List.mem_cons_of_mem _ hj, hrest⟩
        · have hb2 : user.isBot = false := by simpa using hb
          by_cases hf : user.profile.email ∈ userEmails
          · have hstep : (removedCheck api userEmails (userId :: rest)).1 =
                (removedCheck api userEmails rest).1 := by
              simp [removedCheck, hu, hb2, hf]
            rw [hstep] at h
            obtain ⟨j, hj, hrest⟩ := ih h
            exact ⟨j, List.mem_cons_of_mem _ hj, hrest⟩
          · exact ⟨userId, List.mem_cons_self _ _, user, hu, hb2, hf⟩

/-- Witness for C4 on `apiKick`: the kick of `X` that `RemoveUsers`
issues is justified by a non-bot user-info response, and the
removed-member check reporting drift on `[X]` exhibits a non-bot
member. -/
theorem bot_members_never_removed_witness :
    (∃ userId u, apiKick.getUserInfo userId = .ok u ∧ u.id = "X" ∧
       u.isBot = false ∧ u.profile.email ∉ ([] : List String)) ∧
    (∃ userId ∈ ["X"], ∃ u, apiKick.getUserInfo userId = .ok u ∧
       u.isBot = false ∧ u.profile.email ∉ ([] : List String)) :=
  ⟨(bot_members_never_removed apiKick "CH" "X" [] []).1 (by decide),
   (bot_members_never_removed apiKick "CH" "X" [] ["X"]).2 rfl⟩

/-! ### C6, C7: drift detection -/

/-- C6.  `IsChannelUpdated` checks name, topic, description, membership
in this order and short-circuits on the first mismatch: a name mismatch
reports drift after the single channel fetch, with no membership-related
call in the trace; a topic (resp. description) mismatch is only reached
when the earlier fields match and likewise reports drift after the
single fetch. -/
theorem isChannelUpdated_short_circuit (api : API) (cr : CRChannel)
    (ch : Channel)
    (hfetch : api.getConversationInfo cr.status.id = .ok ch) :
    (htmlUnescape ch.name ≠ cr.spec.name →
       IsChannelUpdated api cr = (.ok true, [.getConversationInfo cr.status.id]) ∧
       ∀ c ∈ (IsChannelUpdated api cr).2, c.isMembership = false) ∧
    (htmlUnescape ch.name = cr.spec.name →
     htmlUnescape ch.topic.value ≠ cr.spec.topic →
       IsChannelUpdated api cr = (.ok true, [.getConversationInfo cr.status.id])) ∧
    (htmlUnescape ch.name = cr.spec.name →
     htmlUnescape ch.topic.value = cr.spec.topic →
     htmlUnescape ch.purpose.value ≠ cr.spec.description →
       IsChannelUpdated api cr = (.ok true, [.getConversationInfo cr.status.id])) := by
  refine ⟨fun h1 => ?_, fun h1 h2 => ?_, fun h1 h2 h3 => ?_⟩
  · have heq : IsChannelUpdated api cr =
        (.ok true, [.getConversationInfo cr.status.id]) := by
      simp [IsChannelUpdated, hfetch, h1]
    refine ⟨heq, ?_⟩
    rw [heq]
    simp [ApiCall.isMembership]
  · simp [IsChannelUpdated, hfetch, h1, h2]
  · simp [IsChannelUpdated, hfetch, h1, h2, h3]

/-- Desired spec whose name differs from the remote channel `chTeamX`. -/
def crNameDrift : CRChannel :=
  { spec := { name := "team-y", description := "Desc &co", topic := "launch",
              isPrivate := false, users := ["a@co.com"] },
    status := ⟨"C1"⟩ }

/-- Witness for C6 on `apiFetchTeamX`: the remote name `team-x` differs
from the desired `team-y`, so drift is reported after the single fetch
and the trace holds no membership call. -/
theorem isChannelUpdated_short_circuit_witness :
    IsChannelUpdated apiFetchTeamX crNameDrift =
      (.ok true, [.getConversationInfo "C1"]) ∧
    ∀ c ∈ (IsChannelUpdated apiFetchTeamX crNameDrift).2,
      c.isMembership = false :=
  (isChannelUpdated_short_circuit apiFetchTeamX crNameDrift chTeamX rfl).1
    (by decide)

/-- C7.  Once the attribute checks pass, every remote-lookup failure of
the membership comparison aborts `IsChannelUpdated` with that error and
no boolean verdict: a failing member-list fetch, a failing email
resolution inside the added-member check, and a failing user-info fetch
inside the removed-member check each yield `error e`; moreover the two
loops stop at the failing lookup. -/
theorem isChannelUpdated_membership_error (api : API) (cr : CRChannel)
    (ch : Channel) (e : String)
    (hfetch : api.getConversationInfo cr.status.id = .ok ch)
    (hname : htmlUnescape ch.name = cr.spec.name)
    (htopic : htmlUnescape ch.topic.value = cr.spec.topic)
    (hdesc : htmlUnescape ch.purpose.value = cr.spec.description) :
    (api.getUsersInConversation cr.status.id "" = .error e →
       (IsChannelUpdated api cr).1 = .error e) ∧
    (∀ ids next tr1, api.getUsersInConversation cr.status.id "" = .ok (ids, next) →
       addedCheck api ids cr.spec.users = (.error e, tr1) →
       (IsChannelUpdated api cr).1 = .error e) ∧
    (∀ ids next tr1 tr2,
       api.getUsersInConversation cr.status.id "" = .ok (ids, next) →
       addedCheck api ids cr.spec.users = (.ok false, tr1) →
       removedCheck api cr.spec.users ids = (.error e, tr2) →
       (IsChannelUpdated api cr).1 = .error e) ∧
    (∀ ids email rest, api.getUserByEmail email = .error e →
       addedCheck api ids (email :: rest) = (.error e, [.getUserByEmail email])) ∧
    (∀ userId rest, api.getUserInfo userId = .error e →
       removedCheck api cr.spec.users (userId :: rest) =
         (.error e, [.getUserInfo userId])) := by
  refine ⟨fun h => ?_, fun ids next tr1 hm hadd => ?_,
    fun ids next tr1 tr2 hm hadd hrem => ?_,
    fun ids email rest h => ?_, fun userId rest h => ?_⟩
  · simp [IsChannelUpdated, GetUsersInChannel, hfetch, hname, htopic, hdesc, h]
  · simp [IsChannelUpdated, GetUsersInChannel, hfetch, hname, htopic, hdesc,
      hm, hadd]
  · simp [IsChannelUpdated, GetUsersInChannel, hfetch, hname, htopic, hdesc,
      hm, hadd, hrem]
  · simp [addedCheck, h]
  · simp [removedCheck, h]

/-- Remote that matches `crNoDrift` on all attributes but fails the
member-list fetch. -/
def apiAttrOkMembersFail : API :=
  { apiFetchTeamX with
    getUsersInConversation := fun _ _ => .error "members_failed" }

/-- Desired spec agreeing with `chTeamX` on name, topic and unescaped
description. -/
def crNoDrift : CRChannel :=
  { spec := { name := "team-x", description := "Desc &co", topic := "launch",
              isPrivate := false, users := ["a@co.com"] },
    status := ⟨"C1"⟩ }

/-- Witness for C7 on `apiAttrOkMembersFail`: with all attributes equal
after unescaping, the failing member-list fetch is returned as the
error. -/
theorem isChannelUpdated_membership_error_witness :
    (IsChannelUpdated apiAttrOkMembersFail crNoDrift).1 =
      .error "members_failed" :=
  (isChannelUpdated_membership_error apiAttrOkMembersFail crNoDrift chTeamX
    "members_failed" rfl (by decide) (by decide) (by decide)).1 rfl

/-! ### C5: pagination of the channel search -/

/-- A chain has as many cursors as pages. -/
theorem chain_length {api : API} {c : String} {pages : List (List Channel)}
    {cursors : List String} (h : Chain api c pages cursors) :
    cursors.length = pages.length := by
  induction h <;> simp [*]

/-- A chain's cursor list starts with its start cursor. -/
theorem chain_head {api : API} {c : String} {pages : List (List Channel)}
    {cursors : List String} (h : Chain api c pages cursors) :
    ∃ cs, cursors = c :: cs := by
  cases h <;> exact ⟨_, rfl⟩

/-- Every cursor of a chain after the first is nonempty: the empty string
is only ever the start-of-collection request or the end-of-collection
sentinel. -/
theorem chain_tail_ne {api : API} {c : String} {pages : List (List Channel)}
    {cursors : List String} (h : Chain api c pages cursors) :
    ∀ x ∈ cursors.drop 1, x ≠ "" := by
  induction h with
  | last c p hp => simp
  | step c c2 p ps cs hp hne hch ih =>
    intro x hx
    obtain ⟨cs2, hcs⟩ := chain_head hch
    subst hcs
    simp only [List.drop_succ_cons, List.drop_zero] at hx
    rcases List.mem_cons.mp hx with rfl | hx2
    · exact hne
    · exact ih x (by simpa using hx2)

/-- Master characterization of the search loop over a cursor chain with
sufficient fuel: the result is the first name match in page order (or the
not-found sentinel error), and the trace is exactly the visited cursor
sequence, a prefix of the chain's cursors. -/
theorem getChannelByNameLoop_chain (api : API) (name : String) {c : String}
    {pages : List (List Channel)} {cursors : List String}
    (h : Chain api c pages cursors) :
    ∀ fuel, cursors.length ≤ fuel →
      getChannelByNameLoop api name fuel c =
        ((match scanPages name pages with
          | some channel => Except.ok channel
          | none => Except.error ChannelAlreadyExistsError),
         (cursors.take (pagesVisited name pages)).map ApiCall.getConversations) := by
  induction h with
  | last c p hp =>
    intro fuel hfuel
    cases fuel with
    | zero => simp at hfuel
    | succ fuel =>
      cases hf : p.find? (fun channel => channel.name == name) with
      | some channel => simp [getChannelByNameLoop, hp, hf, scanPages, pagesVisited]
      | none => simp [getChannelByNameLoop, hp, hf, scanPages, pagesVisited]
  | step c c2 p ps cs hp hne hch ih =>
    intro fuel hfuel
    cases fuel with
    | zero => simp at hfuel
    | succ fuel =>
      have hfuel2 : cs.length ≤ fuel := by
        simpa using Nat.succ_le_succ_iff.mp (by simpa using hfuel)
      cases hf : p.find? (fun channel => channel.name == name) with
      | some channel => simp [getChannelByNameLoop, hp, hf, scanPages, pagesVisited]
      | none =>
        have hrec := ih fuel hfuel2
        simp [getChannelByNameLoop, hp, hf, hne, scanPages, pagesVisited, hrec]

/-- `ApiCall.getConversations` is injective in its cursor. -/
theorem getConversations_call_inj :
    Function.Injective ApiCall.getConversations := by
  intro a b h
  injection h

/-- When no page matches, the scan is empty and every page is counted. -/
theorem scanPages_eq_none (name : String) (pages : List (List Channel))
    (h : ∀ p ∈ pages, p.find? (fun channel => channel.name == name) = none) :
    scanPages name pages = none ∧ pagesVisited name pages = pages.length := by
  induction pages with
  | nil => simp [scanPages, pagesVisited]
  | cons p ps ih =>
    have hp := h p (by simp)
    have hps := ih (fun q hq => h q (by simp [hq]))
    simp [scanPages, pagesVisited, hp, hps]

/-- C5.  Over a well-formed multi-page collection (a cursor chain from
the initial empty cursor, with distinct cursors), `GetChannelByName`
requests pages in cursor order, each visited cursor at most once (the
trace is the map of a prefix of the cursor list and is duplicate-free),
and never submits the empty cursor other than as the initial request
(all later chain cursors are nonempty); it returns the first channel of
the collection whose name matches; and when no page matches, every page
is visited exactly once and the not-found sentinel
`ChannelAlreadyExistsError` is returned after the final page. -/
theorem getChannelByName_pagination (api : API) (name : String)
    (pages : List (List Channel)) (cursors : List String) (fuel : Nat)
    (hchain : Chain api "" pages cursors)
    (hnodup : cursors.Nodup)
    (hfuel : cursors.length ≤ fuel) :
    (GetChannelByName api fuel name).2 =
      (cursors.take (pagesVisited name pages)).map ApiCall.getConversations ∧
    (GetChannelByName api fuel name).2.Nodup ∧
    (∀ x ∈ cursors.drop 1, x ≠ "") ∧
    (∀ channel, scanPages name pages = some channel →
       (GetChannelByName api fuel name).1 = .ok channel) ∧
    ((∀ p ∈ pages, p.find? (fun channel => channel.name == name) = none) →
       GetChannelByName api fuel name =
         (.error ChannelAlreadyExistsError,
          cursors.map ApiCall.getConversations)) := by
  have hmain := getChannelByNameLoop_chain api name hchain fuel hfuel
  refine ⟨?_, ?_, chain_tail_ne hchain, ?_, ?_⟩
  · rw [GetChannelByName, hmain]
  · rw [GetChannelByName, hmain]
    exact ((List.take_sublist _ _).nodup hnodup).map getConversations_call_inj
  · intro channel hscan
    rw [GetChannelByName, hmain, hscan]
  · intro hnone
    obtain ⟨hscan, hcount⟩ := scanPages_eq_none name pages hnone
    rw [GetChannelByName, hmain, hscan, hcount, ← chain_length hchain,
      List.take_length]

/-- Two concrete remote channels for the pagination witness. -/
def chOther : Channel :=
  { id := "C8", name := "other", topic := ⟨""⟩, purpose := ⟨""⟩,
    isPrivate := false, members := [] }

/-- The channel the pagination witness searches for, on the second page. -/
def chWanted : Channel :=
  { id := "C9", name := "wanted", topic := ⟨""⟩, purpose := ⟨""⟩,
    isPrivate := true, members := [] }

/-- Remote with a two-page channel collection: the initial request
returns `[chOther]` and cursor `cur2`; the `cur2` page returns
`[chWanted]` and the end sentinel. -/
def apiPages : API :=
  { apiEmpty with
    getConversations := fun cursor =>
      if cursor = "" then .ok ([chOther], "cur2")
      else if cursor = "cur2" then .ok ([chWanted], "")
      else .error "invalid_cursor" }

/-- The two-page collection of `apiPages` forms a cursor chain. -/
theorem apiPages_chain :
    Chain apiPages "" [[chOther], [chWanted]] ["", "cur2"] :=
  Chain.step "" "cur2" [chOther] [[chWanted]] ["cur2"] rfl (by decide)
    (Chain.last "cur2" [chWanted] rfl)

/-- Witness for C5 on `apiPages`: searching for `wanted` finds the
second-page channel, and searching for a name absent from both pages
visits the two cursors once each and returns the sentinel error. -/
theorem getChannelByName_pagination_witness :
    (GetChannelByName apiPages 2 "wanted").1 = .ok chWanted ∧
    GetChannelByName apiPages 2 "absent" =
      (.error ChannelAlreadyExistsError,
       List.map ApiCall.getConversations ["", "cur2"]) :=
  ⟨(getChannelByName_pagination apiPages "wanted" [[chOther], [chWanted]]
      ["", "cur2"] 2 apiPages_chain (by decide) (by decide)).2.2.2.1
      chWanted rfl,
   (getChannelByName_pagination apiPages "absent" [[chOther], [chWanted]]
      ["", "cur2"] 2 apiPages_chain (by decide) (by decide)).2.2.2.2
      (by decide)⟩

/-! ### C9: member listing -/

/-- Remote whose channel membership spans two pages: the first request
returns `["U1"]` with continuation cursor `mcur2`, and the `mcur2` page
returns `["U2"]` with the end sentinel. -/
def apiTwoMemberPages : API :=
  { apiEmpty with
    getUsersInConversation := fun _ cursor =>
      if cursor = "" then .ok (["U1"], "mcur2")
      else if cursor = "mcur2" then .ok (["U2"], "")
      else .error "invalid_cursor" }

/-- C9 counterexample.  On `apiTwoMemberPages` the complete membership is
the two-page chain `["U1"], ["U2"]`, yet `GetUsersInChannel` makes a
single request, discards the continuation cursor and returns only the
first page — the member `U2` is omitted, refuting the claim that no
member of a multi-page membership is omitted. -/
theorem getUsersInChannel_multipage_counterexample :
    MChain apiTwoMemberPages "CH" "" [["U1"], ["U2"]] ∧
    GetUsersInChannel apiTwoMemberPages "CH" =
      (.ok ["U1"], [.getUsersInConversation "CH" ""]) ∧
    (GetUsersInChannel apiTwoMemberPages "CH").1 ≠
      .ok (List.flatten [["U1"], ["U2"]]) := by
  refine ⟨?_, rfl, ?_⟩
  · exact MChain.step "" "mcur2" ["U1"] [["U2"]] rfl (by decide)
      (MChain.last "mcur2" ["U2"] rfl)
  · intro hEq
    rw [show (GetUsersInChannel apiTwoMemberPages "CH").1 =
      Except.ok ["U1"] from rfl] at hEq
    simp [List.flatten] at hEq

/-- C9 (amended).  `GetUsersInChannel` issues exactly one member-list
request (with the fixed limit 100000 and no cursor) and returns exactly
that first page of member IDs, discarding the continuation cursor; the
returned page is the complete membership precisely when the remote
reports no further page (empty next cursor), in which case the single
page forms the whole member chain. -/
theorem getUsersInChannel_single_page (api : API) (channelID : String)
    (ids : List String) (next : String)
    (h : api.getUsersInConversation channelID "" = .ok (ids, next)) :
    GetUsersInChannel api channelID =
      (.ok ids, [.getUsersInConversation channelID ""]) ∧
    (next = "" → MChain api channelID "" [ids]) := by
  constructor
  · simp [GetUsersInChannel, h]
  · intro hnext
    exact MChain.last "" ids (hnext ▸ h)

/-- Remote whose whole membership fits on the single first page. -/
def apiOneMemberPage : API :=
  { apiEmpty with
    getUsersInConversation := fun _ _ => .ok (["U1"], "") }

/-- Witness for the amended C9 on `apiOneMemberPage`: the one request
returns the page, which is the complete single-page chain. -/
theorem getUsersInChannel_single_page_witness :
    GetUsersInChannel apiOneMemberPage "CH" =
      (.ok ["U1"], [.getUsersInConversation "CH" ""]) ∧
    MChain apiOneMemberPage "CH" "" [["U1"]] :=
  ⟨(getUsersInChannel_single_page apiOneMemberPage "CH" ["U1"] "" rfl).1,
   (getUsersInChannel_single_page apiOneMemberPage "CH" ["U1"] "" rfl).2 rfl⟩

end SlackOperator
